import Mathlib

/-!
Verification development for the weather-pipeline program (src/weather.go).

Shallow embedding conventions:
* Go `float64` values (temperatures, wind speeds, coordinates) are modelled
  as rationals; the program only ever compares them, takes min/max, and
  applies the literal arithmetic written in the source, so the embedding
  preserves the source expressions verbatim.
* Go strings are Lean strings.  Go compares and sorts strings bytewise;
  the embedding compares their character lists, which agrees with the Go
  order on the ASCII strings (date keys in the format 2006-01-02, host
  names, ZIP codes) this program manipulates.
* The Go standard-library call time.Parse(time.RFC3339, s) is modelled
  abstractly: a forecast period carries the parse result, an
  Option DateTime, where none models a parse failure and some t carries
  the two projections the program uses, the formatted calendar-date key
  and the Unix timestamp.
* Network calls are modelled by oracle parameters (functions supplied to
  the embedded control flow); panics of the Go runtime (make with a
  negative length, indexing an empty slice) are modelled by Option, with
  none for a panic.
-/

namespace WeatherPipeline

/-- Lexicographic strict order on strings via their character lists.
Models Go's bytewise string comparison used by sort.Strings; the two agree
on ASCII strings such as the date keys this program sorts. -/
def strLt (s t : String) : Prop := s.data < t.data

/-- Lexicographic order (reflexive) on strings via their character lists. -/
def strLe (s t : String) : Prop := s.data ≤ t.data

instance (s t : String) : Decidable (strLt s t) :=
  inferInstanceAs (Decidable (s.data < t.data))

instance (s t : String) : Decidable (strLe s t) :=
  inferInstanceAs (Decidable (s.data ≤ t.data))

/-- Suffix test on strings, via character lists.  Models strings.HasSuffix
from the Go standard library (bytewise suffix; identical on the ASCII
domain-name suffixes in the allow-list). -/
def hasSuffixS (s suf : String) : Bool := suf.data.isSuffixOf s.data

/-- Association-list lookup, modelling a read from a Go map keyed by
strings (weather.go builds dayMap, and getNWSCoordinates consults
zipCoords). -/
def alookup {β : Type} (k : String) : List (String × β) → Option β
  | [] => none
  | (k2, b) :: m => if k = k2 then some b else alookup k m

/-- Association-list update of an existing key, modelling a Go map write
that overwrites the entry for a key already present. -/
def areplace {β : Type} (k : String) (b : β) : List (String × β) → List (String × β)
  | [] => []
  | (k2, c) :: m => if k = k2 then (k2, b) :: m else (k2, c) :: areplace k b m

/-- Key list of an association list (the key set of the modelled Go map). -/
def mapKeys {β : Type} (m : List (String × β)) : List String := m.map (·.1)

/-- Result of parsing an RFC3339 timestamp, reduced to the two projections
weather.go uses: startTime.Format("2006-01-02") (the grouping key) and
startTime.Unix() (the Dt field of the produced daily entry). -/
structure DateTime where
  dateKey : String
  unix : Int
  deriving DecidableEq, Repr

/-- One 12-hour forecast period from the NWS forecast response
(NWSForecastResponse.Properties.Periods element, weather.go lines
300-313), restricted to the fields the aggregation reads.  startTime is
the modelled result of time.Parse on the period's StartTime string. -/
structure NWSPeriod where
  startTime : Option DateTime
  temperature : ℚ
  shortForecast : String
  isDaytime : Bool
  deriving DecidableEq, Repr

/-- One bucket of the dayMap built by getNWSWeather (weather.go lines
614-620): the first seen start time plus running min/max temperature and
the representative condition text. -/
structure DayBucket where
  date : DateTime
  minTemp : ℚ
  maxTemp : ℚ
  description : String
  deriving DecidableEq, Repr

/-- Seeding of a dayMap bucket from the first period seen for a date
(weather.go lines 632-643). -/
def seedBucket (t : DateTime) (p : NWSPeriod) : DayBucket :=
  { date := t, minTemp := p.temperature, maxTemp := p.temperature,
    description := p.shortForecast }

/-- Update of an existing dayMap bucket by a subsequent period on the same
date (weather.go lines 644-655): a daytime period strictly above the
running max raises the max and replaces the description; a nighttime
period strictly below the running min lowers the min. -/
def updateBucket (b : DayBucket) (p : NWSPeriod) : DayBucket :=
  let b1 := if p.isDaytime ∧ b.maxTemp < p.temperature then
    { b with maxTemp := p.temperature, description := p.shortForecast }
  else b
  if ¬p.isDaytime = true ∧ p.temperature < b1.minTemp then
    { b1 with minTemp := p.temperature }
  else b1

/-- One iteration of the period loop of getNWSWeather (weather.go lines
622-658): skip the period if its start time failed to parse, otherwise
seed or update the bucket keyed by the period's date. -/
def stepDayMap (m : List (String × DayBucket)) (p : NWSPeriod) :
    List (String × DayBucket) :=
  match p.startTime with
  | none => m
  | some t =>
    match alookup t.dateKey m with
    | none => m ++ [(t.dateKey, seedBucket t p)]
    | some b => areplace t.dateKey (updateBucket b p) m

/-- The period loop of getNWSWeather run from an intermediate map state. -/
def runDayMap (m : List (String × DayBucket)) : List NWSPeriod → List (String × DayBucket)
  | [] => m
  | p :: ps => runDayMap (stepDayMap m p) ps

/-- The dayMap built by getNWSWeather from the full period sequence. -/
def buildDayMap (ps : List NWSPeriod) : List (String × DayBucket) := runDayMap [] ps

/-- Insertion of a key into a sorted key list (helper for sortKeys). -/
def insertKey (a : String) : List String → List String
  | [] => [a]
  | b :: l => if strLe a b then a :: b :: l else b :: insertKey a l

/-- Ascending sort of the date keys, modelling sort.Strings(days) in
getNWSWeather (weather.go line 667). -/
def sortKeys (l : List String) : List String := l.foldr insertKey []

/-- One entry of WeatherResponse.Daily (weather.go lines 61-70): Unix
timestamp, min/max temperature and the one-element weather description
list. -/
structure DailyEntry where
  dt : Int
  tempMin : ℚ
  tempMax : ℚ
  weather : List String
  deriving DecidableEq, Repr

/-- Conversion of a dayMap bucket into a WeatherResponse.Daily entry
(weather.go lines 672-691 and 700-718). -/
def bucketEntry (b : DayBucket) : DailyEntry :=
  { dt := b.date.unix, tempMin := b.minTemp, tempMax := b.maxTemp,
    weather := [b.description] }

/-- Daily entries read back from the dayMap for a list of date keys (the
body of the loop over sorted days in weather.go lines 694-719; the source
reads dayMap[day] for keys taken from the map, so every lookup hits). -/
def entriesFor (m : List (String × DayBucket)) (l : List String) :
    List (String × DailyEntry) :=
  l.filterMap (fun d => (alookup d m).map (fun b => (d, bucketEntry b)))

/-- The daily sequence assembled by getNWSWeather (weather.go lines
660-719), keyed by the date each entry came from: today's bucket first
when the map contains the key for today, then every other date in
ascending key order.  The today parameter models
time.Now().Format("2006-01-02"). -/
def nwsDailyKeyed (ps : List NWSPeriod) (today : String) : List (String × DailyEntry) :=
  let m := buildDayMap ps
  let days := sortKeys (mapKeys m)
  (match alookup today m with
   | some b => [(today, bucketEntry b)]
   | none => []) ++
  entriesFor m (days.filter (fun d => decide (d ≠ today)))

/-- The Daily field getNWSWeather stores into the WeatherResponse. -/
def nwsDaily (ps : List NWSPeriod) (today : String) : List DailyEntry :=
  (nwsDailyKeyed ps today).map (·.2)

/-- The date keys of the periods whose start time parses (the grouping
keys the aggregation sees). -/
def dateKeysOf (ps : List NWSPeriod) : List String :=
  ps.filterMap (fun p => p.startTime.map (fun t => t.dateKey))

/-- The parseable periods paired with their parsed start times. -/
def parsedPeriods (ps : List NWSPeriod) : List (DateTime × NWSPeriod) :=
  ps.filterMap (fun p => p.startTime.map (fun t => (t, p)))

/-- The subsequence of parseable periods that fall on the date d, in
source order: the periods that touch the dayMap bucket keyed d. -/
def groupOn (d : String) (ps : List NWSPeriod) : List (DateTime × NWSPeriod) :=
  (parsedPeriods ps).filter (fun x => decide (x.1.dateKey = d))

/-- Folding the bucket-update step over the later periods of a date group. -/
def foldGroup (b : DayBucket) (g : List (DateTime × NWSPeriod)) : DayBucket :=
  g.foldl (fun b2 x => updateBucket b2 x.2) b

/-- The bucket a date group produces: seed from the first period of the
group, then update with each later period. -/
def aggGroup : List (DateTime × NWSPeriod) → Option DayBucket
  | [] => none
  | x :: g => some (foldGroup (seedBucket x.1 x.2) g)

/-- Continuation of the per-date aggregation from an optional existing
bucket: fold the updates into the bucket when one exists, otherwise seed
from the first period of the group. -/
def contBucket (o : Option DayBucket) (g : List (DateTime × NWSPeriod)) :
    Option DayBucket :=
  match o with
  | some b => some (foldGroup b g)
  | none => aggGroup g

/-- Temperatures of the nighttime periods of a group. -/
def nightTempsOf (g : List (DateTime × NWSPeriod)) : List ℚ :=
  (g.filter (fun x => !x.2.isDaytime)).map (fun x => x.2.temperature)

/-- Temperatures of the daytime periods of a group. -/
def dayTempsOf (g : List (DateTime × NWSPeriod)) : List ℚ :=
  (g.filter (fun x => x.2.isDaytime)).map (fun x => x.2.temperature)

/-- Running minimum of a list of rationals, None for the empty list.
Order-insensitive canonical form used to compare aggregation results. -/
def ominStep (o : Option ℚ) (x : ℚ) : Option ℚ :=
  some (match o with | none => x | some m => min m x)

/-- Running maximum of a list of rationals, None for the empty list. -/
def omaxStep (o : Option ℚ) (x : ℚ) : Option ℚ :=
  some (match o with | none => x | some m => max m x)

/-- Minimum of a list of rationals as an Option. -/
def foldMinQ (l : List ℚ) : Option ℚ := l.foldl ominStep none

/-- Maximum of a list of rationals as an Option. -/
def foldMaxQ (l : List ℚ) : Option ℚ := l.foldl omaxStep none

/-- Current conditions of a WeatherResponse (weather.go lines 52-60). -/
structure CurrentConditions where
  temp : ℚ
  feelsLike : ℚ
  humidity : Int
  windSpeed : ℚ
  weather : List String
  deriving DecidableEq, Repr

/-- The unified weather response both providers converge on
(weather.go lines 264-284). -/
structure WeatherResponse where
  current : CurrentConditions
  daily : List DailyEntry
  deriving DecidableEq, Repr

/-- The latest NWS station observation (NWSObservationResponse,
weather.go lines 323-339), all values in metric units. -/
structure NWSObservation where
  temperature : ℚ
  windSpeed : ℚ
  relativeHumidity : ℚ
  heatIndex : ℚ
  textDescription : String
  deriving DecidableEq, Repr

/-- celsiusToFahrenheit (weather.go lines 724-727), written exactly as the
source expression celsius*9/5 + 32. -/
def celsiusToFahrenheit (celsius : ℚ) : ℚ := celsius * 9 / 5 + 32

/-- Go conversion int(x) of a float64 to an int truncates toward zero. -/
def ratTrunc (q : ℚ) : Int := if 0 ≤ q then q.floor else -((-q).floor)

/-- The current-conditions normalization of getNWSWeather (weather.go
lines 578-600): Fahrenheit conversion of the observation temperature,
heat index preferred for feels-like when nonzero, wind converted from m/s
to mph by the factor 2.237, humidity truncated to an integer, and the
observation text as the single weather description. -/
def nwsCurrent (obs : NWSObservation) : CurrentConditions :=
  { temp := celsiusToFahrenheit obs.temperature
    feelsLike := celsiusToFahrenheit
      (if obs.heatIndex ≠ 0 then obs.heatIndex else obs.temperature)
    humidity := ratTrunc obs.relativeHumidity
    windSpeed := obs.windSpeed * (2237 / 1000)
    weather := [obs.textDescription] }

/-- The pure normalization getNWSWeather performs once the four upstream
calls have delivered an observation and the forecast periods (weather.go
lines 578-721): the network steps are modelled by handing the decoded
bodies in as arguments. -/
def getNWSWeatherPure (obs : NWSObservation) (ps : List NWSPeriod) (today : String) :
    WeatherResponse :=
  { current := nwsCurrent obs, daily := nwsDaily ps today }

/-- A parsed URL reduced to the fields validateURL reads.  The url.Parse
call itself is standard-library code; its rare failure branch also
rejects, so validateURL is modelled on the parsed form. -/
structure URLParts where
  scheme : String
  host : String
  deriving DecidableEq, Repr

/-- The host allow-list of validateURL (weather.go line 363). -/
def allowedHosts : List String := ["openweathermap.org", "api.weather.gov"]

/-- validateURL (weather.go lines 353-377): reject a non-HTTPS scheme,
then accept exactly when the host has one of the two allowed domains as a
suffix. -/
def validateURL (u : URLParts) : Except String Unit :=
  if u.scheme ≠ "https" then .error ("URL must use HTTPS")
  else if !(allowedHosts.foldl (fun acc h => acc || hasSuffixS u.host h) false) then
    .error ("URL host not allowed: " ++ u.host)
  else .ok ()

/-- isValidZip (weather.go lines 341-351): length five and every character
a decimal digit.  Go measures the byte length and ranges over runes; on
strings of digits the two agree with the character-list view, and both
reject every other string. -/
def isValidZip (zip : String) : Bool :=
  if zip.data.length ≠ 5 then false
  else zip.data.all (fun r => decide ('0' ≤ r) && decide (r ≤ '9'))

/-- The fixed ZIP-to-coordinates table of getNWSCoordinates (weather.go
lines 413-428). -/
def zipCoords : List (String × (ℚ × ℚ × String)) :=
  [("90210", (34.0901, -118.4065, "Beverly Hills")),
   ("10001", (40.7501, -73.9996, "New York")),
   ("60601", (41.8841, -87.6277, "Chicago")),
   ("02108", (42.3581, -71.0636, "Boston")),
   ("94102", (37.7794, -122.4184, "San Francisco")),
   ("98101", (47.6097, -122.3331, "Seattle")),
   ("33101", (25.7743, -80.1937, "Miami")),
   ("75201", (32.7795, -96.8022, "Dallas")),
   ("77001", (29.7604, -95.3698, "Houston")),
   ("85001", (33.4484, -112.0740, "Phoenix"))]

/-- The default location returned for a ZIP code absent from the table
(weather.go line 435). -/
def defaultCoords : ℚ × ℚ × String := (40.7128, -74.0060, "New York")

/-- getNWSCoordinates (weather.go lines 410-436): table lookup with a
hardcoded default, never an error. -/
def getNWSCoordinates (zip : String) : Except String (ℚ × ℚ × String) :=
  match alookup zip zipCoords with
  | some c => .ok c
  | none => .ok defaultCoords

/-- One entry of WeatherData.Forecast (weather.go lines 35-40). -/
structure ForecastEntry where
  date : Int
  tempMin : ℚ
  tempMax : ℚ
  condition : String
  deriving DecidableEq, Repr

/-- The processed per-location record WeatherData (weather.go lines
236-256), with the timestamp modelled by its Unix value. -/
structure WeatherData where
  locationID : String
  locationName : String
  timestamp : Int
  temperature : ℚ
  feelsLike : ℚ
  humidity : Int
  windSpeed : ℚ
  condition : String
  forecastDays : Int
  forecast : List ForecastEntry
  deriving DecidableEq, Repr

/-- Effectful list map over Option: the first none (a modelled panic)
aborts the whole computation, as a Go panic aborts the loop. -/
def optionMapList {α β : Type} (f : α → Option β) : List α → Option (List β)
  | [] => some []
  | a :: l => match f a with
    | none => none
    | some b => (optionMapList f l).map (fun bs => b :: bs)

/-- Conversion of one daily entry into a forecast entry (weather.go lines
1277-1290).  The source indexes day.Weather[0] unconditionally; on an
empty weather list that is an index-out-of-range panic, modelled none. -/
def forecastOf (d : DailyEntry) : Option ForecastEntry :=
  match d.weather with
  | [] => none
  | c :: _ =>
    some { date := d.dt, tempMin := d.tempMin, tempMax := d.tempMax, condition := c }

/-- The response-processing tail of GetLocationWeather (weather.go lines
1248-1301, the AI-summary branch excluded as an external collaborator):
cap the daily count at 7, allocate the forecast slice of length
forecastDays-1, and copy entries 1..forecastDays-1.  With an empty Daily
the source calls make with length -1, a runtime panic, modelled none. -/
def processWeatherData (zip city : String) (now : Int) (w : WeatherResponse) :
    Option WeatherData :=
  let forecastDays : Int := if (w.daily.length : Int) > 7 then 7 else (w.daily.length : Int)
  if forecastDays - 1 < 0 then none
  else (optionMapList forecastOf ((w.daily.take forecastDays.toNat).drop 1)).map
    (fun fc =>
      { locationID := zip, locationName := city, timestamp := now,
        temperature := w.current.temp, feelsLike := w.current.feelsLike,
        humidity := w.current.humidity, windSpeed := w.current.windSpeed,
        condition := match w.current.weather with | [] => "" | c :: _ => c,
        forecastDays := forecastDays - 1, forecast := fc })

/-- GetLocationWeather (weather.go lines 1232-1302) with the two network
steps supplied as oracles.  The outer Option models a runtime panic; the
inner Except models the error value GetLocationWeather returns. -/
def getLocationWeatherO (zip : String)
    (coord : String → Except String (ℚ × ℚ × String))
    (fetchW : ℚ → ℚ → Except String WeatherResponse)
    (now : Int) : Option (Except String WeatherData) :=
  match coord zip with
  | .error e => some (.error ("failed to get coordinates: " ++ e))
  | .ok (lat, lon, city) =>
    match fetchW lat lon with
    | .error e => some (.error ("failed to get weather: " ++ e))
    | .ok w =>
      match processWeatherData zip city now w with
      | none => none
      | some wd => some (.ok wd)

/-- ProcessLocations (weather.go lines 1202-1229) restricted to the
collection of successful records: an error for a ZIP code is logged and
the batch continues; a modelled panic terminates the whole run. -/
def processLocationsO (zips : List String)
    (fetch : String → Option (Except String WeatherData)) : Option (List WeatherData) :=
  zips.foldl (fun acc z =>
    match acc with
    | none => none
    | some l =>
      match fetch z with
      | none => none
      | some (.error _) => some l
      | some (.ok w) => some (l ++ [w])) (some [])

/-- Concrete periods for the example of the daily-aggregation claim:
day one 08:00 daytime 70, day one 20:00 nighttime 55, day two 08:00
daytime 72. -/
def exPeriod1 : NWSPeriod :=
  { startTime := some { dateKey := "2025-01-01", unix := 1735718400 },
    temperature := 70, shortForecast := "Sunny", isDaytime := true }

def exPeriod2 : NWSPeriod :=
  { startTime := some { dateKey := "2025-01-01", unix := 1735761600 },
    temperature := 55, shortForecast := "Clear", isDaytime := false }

def exPeriod3 : NWSPeriod :=
  { startTime := some { dateKey := "2025-01-02", unix := 1735804800 },
    temperature := 72, shortForecast := "Cloudy", isDaytime := true }

def exPeriods : List NWSPeriod := [exPeriod1, exPeriod2, exPeriod3]

/-- A daytime period used by the reordering counterexample: 70 degrees. -/
def cexDay : NWSPeriod :=
  { startTime := some { dateKey := "2025-07-01", unix := 1751356800 },
    temperature := 70, shortForecast := "Sunny", isDaytime := true }

/-- A nighttime period hotter than the daytime one: 80 degrees. -/
def cexNight : NWSPeriod :=
  { startTime := some { dateKey := "2025-07-01", unix := 1751400000 },
    temperature := 80, shortForecast := "Hot night", isDaytime := false }

/-- A period on day number i of an eight-day stretch (helper for the
cap counterexample). -/
def ex8Period (i : Nat) : NWSPeriod :=
  { startTime := some ⟨"2025-03-0" ++ toString (i + 1), Int.ofNat (1740960000 + 86400 * i)⟩,
    temperature := 60, shortForecast := "Mild", isDaytime := true }

/-- Eight periods on eight distinct dates 2025-03-01 .. 2025-03-08. -/
def ex8Periods : List NWSPeriod :=
  [ex8Period 0, ex8Period 1, ex8Period 2, ex8Period 3,
   ex8Period 4, ex8Period 5, ex8Period 6, ex8Period 7]

/-- A well-formed current-conditions block for concrete scenarios. -/
def exCurrent : CurrentConditions :=
  { temp := 68, feelsLike := 66, humidity := 40, windSpeed := 5,
    weather := ["Partly cloudy"] }

/-- A decoded weather body with no daily entries, as produced by an
upstream 200 response whose JSON body is empty. -/
def emptyWeatherResponse : WeatherResponse := { current := exCurrent, daily := [] }

/-- A response whose second daily entry has an empty weather list. -/
def cexWeatherlessResponse : WeatherResponse :=
  { current := exCurrent,
    daily := [{ dt := 100, tempMin := 50, tempMax := 60, weather := ["Sunny"] },
              { dt := 200, tempMin := 51, tempMax := 61, weather := [] }] }

/-- A response with three well-formed daily entries. -/
def exGoodResponse : WeatherResponse :=
  { current := exCurrent,
    daily := [{ dt := 100, tempMin := 50, tempMax := 60, weather := ["Sunny"] },
              { dt := 200, tempMin := 51, tempMax := 61, weather := ["Rain"] },
              { dt := 300, tempMin := 52, tempMax := 62, weather := ["Snow"] }] }

/-- A period whose RFC3339 start time fails to parse. -/
def badPeriod : NWSPeriod :=
  { startTime := none, temperature := 99, shortForecast := "Garbled", isDaytime := true }

/-! Association-list and dayMap infrastructure lemmas. -/

theorem alookup_append {β : Type} (k : String) (m m2 : List (String × β)) :
    alookup k (m ++ m2) =
      match alookup k m with
      | some b => some b
      | none => alookup k m2 := by
  induction m with
  | nil => simp [alookup]
  | cons x m ih =>
    obtain ⟨k2, b⟩ := x
    by_cases h : k = k2
    · simp [alookup, h]
    · simp [alookup, h, ih]

theorem alookup_areplace_self {β : Type} {k : String} {m : List (String × β)} {b : β}
    (h : alookup k m = some b) (c : β) :
    alookup k (areplace k c m) = some c := by
  induction m with
  | nil => simp [alookup] at h
  | cons x m ih =>
    obtain ⟨k2, d⟩ := x
    by_cases hk : k = k2
    · simp [areplace, alookup, hk]
    · simp only [alookup, if_neg hk] at h
      simp [areplace, alookup, hk, ih h]

theorem alookup_areplace_ne {β : Type} {d k : String} (hne : d ≠ k) (c : β)
    (m : List (String × β)) :
    alookup d (areplace k c m) = alookup d m := by
  induction m with
  | nil => simp [areplace]
  | cons x m ih =>
    obtain ⟨k2, e⟩ := x
    by_cases hk : k = k2
    · subst hk
      simp [areplace, alookup, hne, ih]
    · by_cases hd : d = k2 <;> simp [areplace, alookup, hk, hd, ih]

theorem mapKeys_areplace {β : Type} (k : String) (c : β) (m : List (String × β)) :
    mapKeys (areplace k c m) = mapKeys m := by
  induction m with
  | nil => rfl
  | cons x m ih =>
    obtain ⟨k2, e⟩ := x
    by_cases hk : k = k2
    · simp [areplace, hk, mapKeys]
    · simp only [areplace, if_neg hk]
      simp only [mapKeys, List.map_cons] at ih ⊢
      rw [ih]

theorem alookup_eq_none_iff {β : Type} (k : String) (m : List (String × β)) :
    alookup k m = none ↔ k ∉ mapKeys m := by
  induction m with
  | nil => simp [alookup, mapKeys]
  | cons x m ih =>
    obtain ⟨k2, e⟩ := x
    by_cases hk : k = k2 <;> simp [alookup, mapKeys, hk, ih]

theorem runDayMap_append (ps qs : List NWSPeriod) (m : List (String × DayBucket)) :
    runDayMap m (ps ++ qs) = runDayMap (runDayMap m ps) qs := by
  induction ps generalizing m with
  | nil => rfl
  | cons p ps ih => simp [runDayMap, ih]

theorem contBucket_nil (o : Option DayBucket) : contBucket o [] = o := by
  cases o <;> rfl

theorem contBucket_cons (o : Option DayBucket) (x : DateTime × NWSPeriod)
    (g : List (DateTime × NWSPeriod)) :
    contBucket o (x :: g) =
      contBucket (some (match o with
        | none => seedBucket x.1 x.2
        | some b => updateBucket b x.2)) g := by
  cases o <;> simp [contBucket, aggGroup, foldGroup]

theorem parsedPeriods_cons (p : NWSPeriod) (ps : List NWSPeriod) :
    parsedPeriods (p :: ps) =
      match p.startTime with
      | none => parsedPeriods ps
      | some t => (t, p) :: parsedPeriods ps := by
  cases h : p.startTime <;> simp [parsedPeriods, h]

theorem groupOn_cons (d : String) (p : NWSPeriod) (ps : List NWSPeriod) :
    groupOn d (p :: ps) =
      match p.startTime with
      | none => groupOn d ps
      | some t => if t.dateKey = d then (t, p) :: groupOn d ps else groupOn d ps := by
  cases h : p.startTime with
  | none => simp [groupOn, parsedPeriods_cons, h]
  | some t =>
    by_cases hd : t.dateKey = d <;>
      simp [groupOn, parsedPeriods_cons, h, List.filter_cons, hd]

theorem alookup_stepDayMap_hit {m : List (String × DayBucket)} {p : NWSPeriod}
    {t : DateTime} (h : p.startTime = some t) :
    alookup t.dateKey (stepDayMap m p) =
      some (match alookup t.dateKey m with
        | none => seedBucket t p
        | some b => updateBucket b p) := by
  cases hm : alookup t.dateKey m with
  | none =>
    simp only [stepDayMap, h, hm]
    rw [alookup_append, hm]
    simp [alookup]
  | some b =>
    simp only [stepDayMap, h, hm]
    rw [alookup_areplace_self hm]

theorem alookup_stepDayMap_miss {m : List (String × DayBucket)} {p : NWSPeriod}
    {t : DateTime} {d : String} (h : p.startTime = some t) (hd : d ≠ t.dateKey) :
    alookup d (stepDayMap m p) = alookup d m := by
  cases hm : alookup t.dateKey m with
  | none =>
    simp only [stepDayMap, h, hm]
    rw [alookup_append]
    cases hdm : alookup d m <;> simp [alookup, hd]
  | some b =>
    simp only [stepDayMap, h, hm]
    rw [alookup_areplace_ne hd]

theorem groupOn_cons_none {d : String} {p : NWSPeriod} (ps : List NWSPeriod)
    (h : p.startTime = none) : groupOn d (p :: ps) = groupOn d ps := by
  simp [groupOn_cons, h]

theorem groupOn_cons_some {d : String} {p : NWSPeriod} {t : DateTime}
    (ps : List NWSPeriod) (h : p.startTime = some t) :
    groupOn d (p :: ps) =
      if t.dateKey = d then (t, p) :: groupOn d ps else groupOn d ps := by
  simp [groupOn_cons, h]

theorem alookup_runDayMap (d : String) (ps : List NWSPeriod) :
    ∀ m, alookup d (runDayMap m ps) = contBucket (alookup d m) (groupOn d ps) := by
  induction ps with
  | nil =>
    intro m
    simp [runDayMap, groupOn, parsedPeriods, contBucket_nil]
  | cons p ps ih =>
    intro m
    rw [show runDayMap m (p :: ps) = runDayMap (stepDayMap m p) ps from rfl, ih]
    cases h : p.startTime with
    | none =>
      rw [groupOn_cons_none ps h]
      simp only [stepDayMap, h]
    | some t =>
      rw [groupOn_cons_some ps h]
      by_cases hd : t.dateKey = d
      · subst hd
        rw [if_pos rfl, contBucket_cons]
        rw [alookup_stepDayMap_hit h]
      · rw [if_neg hd]
        rw [alookup_stepDayMap_miss h (fun he => hd he.symm)]

theorem alookup_buildDayMap (d : String) (ps : List NWSPeriod) :
    alookup d (buildDayMap ps) = aggGroup (groupOn d ps) := by
  rw [buildDayMap, alookup_runDayMap]
  rfl

/-! Field-level characterization of the bucket update and closed forms of
the per-date fold. -/

theorem updateBucket_minTemp (b : DayBucket) (p : NWSPeriod) :
    (updateBucket b p).minTemp =
      if p.isDaytime then b.minTemp else min b.minTemp p.temperature := by
  cases hday : p.isDaytime with
  | true =>
    by_cases hmx : b.maxTemp < p.temperature <;> simp [updateBucket, hday, hmx]
  | false =>
    by_cases hlt : p.temperature < b.minTemp
    · simp [updateBucket, hday, hlt, min_eq_right (le_of_lt hlt)]
    · simp [updateBucket, hday, hlt, min_eq_left (le_of_not_lt hlt)]

theorem updateBucket_maxTemp (b : DayBucket) (p : NWSPeriod) :
    (updateBucket b p).maxTemp =
      if p.isDaytime then max b.maxTemp p.temperature else b.maxTemp := by
  cases hday : p.isDaytime with
  | true =>
    by_cases hmx : b.maxTemp < p.temperature
    · simp [updateBucket, hday, hmx, max_eq_right (le_of_lt hmx)]
    · simp [updateBucket, hday, hmx, max_eq_left (le_of_not_lt hmx)]
  | false =>
    by_cases hlt : p.temperature < b.minTemp <;> simp [updateBucket, hday, hlt]

theorem updateBucket_date (b : DayBucket) (p : NWSPeriod) :
    (updateBucket b p).date = b.date := by
  cases hday : p.isDaytime with
  | true =>
    by_cases hmx : b.maxTemp < p.temperature <;> simp [updateBucket, hday, hmx]
  | false =>
    by_cases hlt : p.temperature < b.minTemp <;> simp [updateBucket, hday, hlt]

theorem updateBucket_description (b : DayBucket) (p : NWSPeriod) :
    (updateBucket b p).description =
      if p.isDaytime = true ∧ b.maxTemp < p.temperature then p.shortForecast
      else b.description := by
  cases hday : p.isDaytime with
  | true =>
    by_cases hmx : b.maxTemp < p.temperature <;> simp [updateBucket, hday, hmx]
  | false =>
    by_cases hlt : p.temperature < b.minTemp <;> simp [updateBucket, hday, hlt]

theorem nightTempsOf_cons (x : DateTime × NWSPeriod) (g : List (DateTime × NWSPeriod)) :
    nightTempsOf (x :: g) =
      if x.2.isDaytime then nightTempsOf g
      else x.2.temperature :: nightTempsOf g := by
  cases h : x.2.isDaytime <;> simp [nightTempsOf, List.filter_cons, h]

theorem dayTempsOf_cons (x : DateTime × NWSPeriod) (g : List (DateTime × NWSPeriod)) :
    dayTempsOf (x :: g) =
      if x.2.isDaytime then x.2.temperature :: dayTempsOf g
      else dayTempsOf g := by
  cases h : x.2.isDaytime <;> simp [dayTempsOf, List.filter_cons, h]

theorem foldGroup_minTemp (g : List (DateTime × NWSPeriod)) :
    ∀ b : DayBucket, (foldGroup b g).minTemp = (nightTempsOf g).foldl min b.minTemp := by
  induction g with
  | nil => intro b; simp [foldGroup, nightTempsOf]
  | cons x g ih =>
    intro b
    rw [show foldGroup b (x :: g) = foldGroup (updateBucket b x.2) g from rfl, ih]
    cases h : x.2.isDaytime <;>
      simp [nightTempsOf_cons, h, updateBucket_minTemp]

theorem foldGroup_maxTemp (g : List (DateTime × NWSPeriod)) :
    ∀ b : DayBucket, (foldGroup b g).maxTemp = (dayTempsOf g).foldl max b.maxTemp := by
  induction g with
  | nil => intro b; simp [foldGroup, dayTempsOf]
  | cons x g ih =>
    intro b
    rw [show foldGroup b (x :: g) = foldGroup (updateBucket b x.2) g from rfl, ih]
    cases h : x.2.isDaytime <;>
      simp [dayTempsOf_cons, h, updateBucket_maxTemp]

theorem foldGroup_date (g : List (DateTime × NWSPeriod)) :
    ∀ b : DayBucket, (foldGroup b g).date = b.date := by
  induction g with
  | nil => intro b; rfl
  | cons x g ih =>
    intro b
    rw [show foldGroup b (x :: g) = foldGroup (updateBucket b x.2) g from rfl, ih]
    rw [updateBucket_date]

theorem foldl_min_le_init (l : List ℚ) : ∀ a : ℚ, l.foldl min a ≤ a := by
  induction l with
  | nil => intro a; simp
  | cons x l ih =>
    intro a
    rw [List.foldl_cons]
    exact le_trans (ih (min a x)) (min_le_left a x)

theorem le_foldl_max_init (l : List ℚ) : ∀ a : ℚ, a ≤ l.foldl max a := by
  induction l with
  | nil => intro a; simp
  | cons x l ih =>
    intro a
    rw [List.foldl_cons]
    exact le_trans (le_max_left a x) (ih (max a x))

theorem aggGroup_min_le_max {g : List (DateTime × NWSPeriod)} {b : DayBucket}
    (h : aggGroup g = some b) : b.minTemp ≤ b.maxTemp := by
  cases g with
  | nil => simp [aggGroup] at h
  | cons x g =>
    simp only [aggGroup, Option.some.injEq] at h
    subst h
    rw [foldGroup_minTemp, foldGroup_maxTemp]
    refine le_trans (foldl_min_le_init _ _) (le_trans ?_ (le_foldl_max_init _ _))
    exact le_refl x.2.temperature

/-! Key-set lemmas for the dayMap and sorting lemmas for the date keys. -/

theorem mapKeys_append {β : Type} (m l : List (String × β)) :
    mapKeys (m ++ l) = mapKeys m ++ mapKeys l := by
  simp [mapKeys]

theorem mem_of_alookup_eq_some {β : Type} {k : String} {m : List (String × β)} {b : β}
    (h : alookup k m = some b) : k ∈ mapKeys m := by
  by_contra hc
  rw [← alookup_eq_none_iff] at hc
  rw [hc] at h
  exact Option.noConfusion h

theorem dateKeysOf_cons_none {p : NWSPeriod} (ps : List NWSPeriod)
    (h : p.startTime = none) : dateKeysOf (p :: ps) = dateKeysOf ps := by
  simp [dateKeysOf, h]

theorem dateKeysOf_cons_some {p : NWSPeriod} {t : DateTime} (ps : List NWSPeriod)
    (h : p.startTime = some t) :
    dateKeysOf (p :: ps) = t.dateKey :: dateKeysOf ps := by
  simp [dateKeysOf, h]

theorem mem_mapKeys_stepDayMap (m : List (String × DayBucket)) {p : NWSPeriod}
    {t : DateTime} (h : p.startTime = some t) (d : String) :
    d ∈ mapKeys (stepDayMap m p) ↔ d ∈ mapKeys m ∨ d = t.dateKey := by
  cases hm : alookup t.dateKey m with
  | none =>
    simp [stepDayMap, h, hm, mapKeys, List.mem_append]
  | some b =>
    simp only [stepDayMap, h, hm, mapKeys_areplace]
    constructor
    · exact Or.inl
    · rintro (hd | rfl)
      · exact hd
      · exact mem_of_alookup_eq_some hm

theorem mem_mapKeys_runDayMap (d : String) (ps : List NWSPeriod) :
    ∀ m, d ∈ mapKeys (runDayMap m ps) ↔ d ∈ mapKeys m ∨ d ∈ dateKeysOf ps := by
  induction ps with
  | nil => intro m; simp [runDayMap, dateKeysOf]
  | cons p ps ih =>
    intro m
    rw [show runDayMap m (p :: ps) = runDayMap (stepDayMap m p) ps from rfl, ih]
    cases h : p.startTime with
    | none =>
      rw [dateKeysOf_cons_none ps h]
      simp [stepDayMap, h]
    | some t =>
      rw [dateKeysOf_cons_some ps h, mem_mapKeys_stepDayMap m h d]
      simp only [List.mem_cons]
      tauto

theorem nodup_mapKeys_stepDayMap (m : List (String × DayBucket)) (p : NWSPeriod)
    (h : (mapKeys m).Nodup) : (mapKeys (stepDayMap m p)).Nodup := by
  cases hst : p.startTime with
  | none => simpa [stepDayMap, hst] using h
  | some t =>
    cases hm : alookup t.dateKey m with
    | none =>
      have hnm : t.dateKey ∉ mapKeys m := (alookup_eq_none_iff _ _).mp hm
      simp only [stepDayMap, hst, hm, mapKeys_append]
      refine h.append (List.nodup_singleton _) ?_
      intro x hx hx2
      simp only [mapKeys, List.map_cons, List.map_nil, List.mem_singleton] at hx2
      subst hx2
      exact hnm hx
    | some b => simpa [stepDayMap, hst, hm, mapKeys_areplace] using h

theorem nodup_mapKeys_runDayMap (ps : List NWSPeriod) :
    ∀ m, (mapKeys m).Nodup → (mapKeys (runDayMap m ps)).Nodup := by
  induction ps with
  | nil => intro m h; exact h
  | cons p ps ih =>
    intro m h
    exact ih (stepDayMap m p) (nodup_mapKeys_stepDayMap m p h)

theorem nodup_mapKeys_buildDayMap (ps : List NWSPeriod) :
    (mapKeys (buildDayMap ps)).Nodup :=
  nodup_mapKeys_runDayMap ps [] (by simp [mapKeys])

theorem mem_mapKeys_buildDayMap (d : String) (ps : List NWSPeriod) :
    d ∈ mapKeys (buildDayMap ps) ↔ d ∈ dateKeysOf ps := by
  rw [buildDayMap, mem_mapKeys_runDayMap]
  simp [mapKeys]

theorem length_mapKeys_buildDayMap (ps : List NWSPeriod) :
    (mapKeys (buildDayMap ps)).length = (dateKeysOf ps).dedup.length := by
  have hperm : (mapKeys (buildDayMap ps)).Perm (dateKeysOf ps).dedup := by
    rw [List.perm_ext_iff_of_nodup (nodup_mapKeys_buildDayMap ps) (List.nodup_dedup _)]
    intro a
    rw [mem_mapKeys_buildDayMap, List.mem_dedup]
  exact hperm.length_eq

theorem insertKey_perm (a : String) (l : List String) : (insertKey a l).Perm (a :: l) := by
  induction l with
  | nil => exact List.Perm.refl _
  | cons b l ih =>
    by_cases h : strLe a b
    · simp [insertKey, h]
    · simp only [insertKey, if_neg h]
      exact (ih.cons b).trans (List.Perm.swap a b l)

theorem sortKeys_perm (l : List String) : (sortKeys l).Perm l := by
  induction l with
  | nil => exact List.Perm.refl _
  | cons a l ih =>
    rw [show sortKeys (a :: l) = insertKey a (sortKeys l) from rfl]
    exact (insertKey_perm a (sortKeys l)).trans (ih.cons a)

theorem insertKey_sorted {l : List String} (a : String) (h : List.Sorted strLe l) :
    List.Sorted strLe (insertKey a l) := by
  induction l with
  | nil => simp [insertKey]
  | cons b l ih =>
    rw [List.sorted_cons] at h
    obtain ⟨hb, hl⟩ := h
    by_cases hab : strLe a b
    · simp only [insertKey, if_pos hab]
      rw [List.sorted_cons]
      refine ⟨?_, ?_⟩
      · intro c hc
        rcases List.mem_cons.mp hc with rfl | hc
        · exact hab
        · exact le_trans hab (hb c hc)
      · rw [List.sorted_cons]
        exact ⟨hb, hl⟩
    · simp only [insertKey, if_neg hab]
      rw [List.sorted_cons]
      refine ⟨?_, ih hl⟩
      intro c hc
      have hmem := (insertKey_perm a l).mem_iff.mp hc
      rcases List.mem_cons.mp hmem with rfl | hc2
      · exact le_of_not_le hab
      · exact hb c hc2

theorem sortKeys_sorted (l : List String) : List.Sorted strLe (sortKeys l) := by
  induction l with
  | nil => simp [sortKeys]
  | cons a l ih => exact insertKey_sorted a ih

theorem strData_inj {s t : String} (h : s.data = t.data) : s = t := by
  cases s
  cases t
  cases h
  rfl

theorem sorted_strLt_of_sorted_nodup {l : List String}
    (hs : List.Sorted strLe l) (hn : l.Nodup) : List.Sorted strLt l := by
  refine (hs.and hn).imp ?_
  intro a b hab
  obtain ⟨hle, hne⟩ := hab
  exact lt_of_le_of_ne hle (fun he => hne (strData_inj he))

/-! Structure of the assembled daily sequence. -/

theorem mem_entriesFor {m : List (String × DayBucket)} {l : List String}
    {x : String × DailyEntry} (h : x ∈ entriesFor m l) :
    x.1 ∈ l ∧ ∃ b, alookup x.1 m = some b ∧ x.2 = bucketEntry b := by
  rw [entriesFor, List.mem_filterMap] at h
  obtain ⟨a, hal, hfa⟩ := h
  cases hb : alookup a m with
  | none =>
    rw [hb] at hfa
    exact Option.noConfusion hfa
  | some b =>
    rw [hb] at hfa
    rw [Option.map_some'] at hfa
    injection hfa with hx
    subst hx
    exact ⟨hal, b, hb, rfl⟩

theorem entriesFor_map_fst (m : List (String × DayBucket)) (l : List String)
    (h : ∀ d ∈ l, d ∈ mapKeys m) :
    (entriesFor m l).map (·.1) = l := by
  induction l with
  | nil => rfl
  | cons d l ih =>
    have hd : d ∈ mapKeys m := h d (List.mem_cons_self d l)
    cases hb : alookup d m with
    | none => exact absurd hd (fun hc => (alookup_eq_none_iff d m).mp hb hc)
    | some b =>
      simp only [entriesFor, List.filterMap_cons, hb, Option.map_some'] at ih ⊢
      rw [List.map_cons]
      rw [ih (fun x hx => h x (List.mem_cons_of_mem d hx))]

theorem entriesFor_length (m : List (String × DayBucket)) (l : List String)
    (h : ∀ d ∈ l, d ∈ mapKeys m) : (entriesFor m l).length = l.length := by
  have he := entriesFor_map_fst m l h
  calc (entriesFor m l).length
      = ((entriesFor m l).map (·.1)).length := (List.length_map _ _).symm
    _ = l.length := by rw [he]

theorem nwsDailyKeyed_eq (ps : List NWSPeriod) (today : String) :
    nwsDailyKeyed ps today =
      (match alookup today (buildDayMap ps) with
       | some b => [(today, bucketEntry b)]
       | none => []) ++
      entriesFor (buildDayMap ps) ((sortKeys (mapKeys (buildDayMap ps))).filter
        (fun d => decide (d ≠ today))) := rfl

theorem nwsDailyKeyed_map_fst (ps : List NWSPeriod) (today : String) :
    (nwsDailyKeyed ps today).map (·.1) =
      (match alookup today (buildDayMap ps) with
       | some _ => [today]
       | none => ([] : List String)) ++
      (sortKeys (mapKeys (buildDayMap ps))).filter (fun d => decide (d ≠ today)) := by
  rw [nwsDailyKeyed_eq, List.map_append]
  congr 1
  · cases h : alookup today (buildDayMap ps) <;> simp
  · apply entriesFor_map_fst
    intro d hd
    exact (sortKeys_perm _).mem_iff.mp (List.mem_filter.mp hd).1

theorem sortKeys_nodup_buildDayMap (ps : List NWSPeriod) :
    (sortKeys (mapKeys (buildDayMap ps))).Nodup :=
  ((sortKeys_perm _).nodup_iff).mpr (nodup_mapKeys_buildDayMap ps)

theorem nwsDailyKeyed_dates_nodup (ps : List NWSPeriod) (today : String) :
    ((nwsDailyKeyed ps today).map (·.1)).Nodup := by
  rw [nwsDailyKeyed_map_fst]
  have hf : ((sortKeys (mapKeys (buildDayMap ps))).filter
      (fun d => decide (d ≠ today))).Nodup :=
    (sortKeys_nodup_buildDayMap ps).filter _
  cases h : alookup today (buildDayMap ps) with
  | none => simpa using hf
  | some b =>
    refine (List.nodup_singleton today).append hf ?_
    intro x hx hx2
    simp only [List.mem_singleton] at hx
    subst hx
    have := (List.mem_filter.mp hx2).2
    simp at this

theorem nwsDailyKeyed_dates_sorted (ps : List NWSPeriod) (today : String) :
    List.Sorted strLt (((nwsDailyKeyed ps today).map (·.1)).filter
      (fun d => decide (d ≠ today))) := by
  rw [nwsDailyKeyed_map_fst, List.filter_append]
  have hSlt : List.Sorted strLt (sortKeys (mapKeys (buildDayMap ps))) :=
    sorted_strLt_of_sorted_nodup (sortKeys_sorted _) (sortKeys_nodup_buildDayMap ps)
  have h2 : List.Sorted strLt ((sortKeys (mapKeys (buildDayMap ps))).filter
      (fun d => decide (d ≠ today))) := hSlt.filter _
  cases h : alookup today (buildDayMap ps) with
  | none =>
    simpa using h2
  | some b =>
    have hnil : (([today] : List String).filter (fun d => decide (d ≠ today))) = [] := by
      simp
    simpa [hnil] using h2

theorem nwsDailyKeyed_head (ps : List NWSPeriod) (today : String)
    (h : today ∈ dateKeysOf ps) :
    ((nwsDailyKeyed ps today).map (·.1)).head? = some today := by
  rw [nwsDailyKeyed_map_fst]
  have hk : today ∈ mapKeys (buildDayMap ps) := (mem_mapKeys_buildDayMap _ _).mpr h
  cases hb : alookup today (buildDayMap ps) with
  | none => exact absurd hk ((alookup_eq_none_iff _ _).mp hb)
  | some b => simp

theorem nwsDailyKeyed_min_le_max (ps : List NWSPeriod) (today : String) :
    ∀ x ∈ nwsDailyKeyed ps today, x.2.tempMin ≤ x.2.tempMax := by
  intro x hx
  have key : ∀ b : DayBucket, alookup x.1 (buildDayMap ps) = some b →
      x.2 = bucketEntry b → x.2.tempMin ≤ x.2.tempMax := by
    intro b hb he
    rw [alookup_buildDayMap] at hb
    have hmm := aggGroup_min_le_max hb
    rw [he]
    exact hmm
  rw [nwsDailyKeyed_eq, List.mem_append] at hx
  rcases hx with hx | hx
  · cases hb : alookup today (buildDayMap ps) with
    | none =>
      rw [hb] at hx
      simp at hx
    | some b =>
      rw [hb] at hx
      simp only [List.mem_singleton] at hx
      subst hx
      exact key b hb rfl
  · obtain ⟨hmem, b, hb, he⟩ := mem_entriesFor hx
    exact key b hb he

theorem filter_ne_eq_self {l : List String} {a : String} (ha : a ∉ l) :
    l.filter (fun d => decide (d ≠ a)) = l := by
  rw [List.filter_eq_self]
  intro d hd
  simp only [decide_eq_true_eq]
  exact fun he => ha (he ▸ hd)

theorem filter_ne_length {l : List String} {a : String} (hn : l.Nodup) (ha : a ∈ l) :
    (l.filter (fun d => decide (d ≠ a))).length + 1 = l.length := by
  induction l with
  | nil => simp at ha
  | cons x l ih =>
    rw [List.nodup_cons] at hn
    obtain ⟨hx, hn⟩ := hn
    rcases List.mem_cons.mp ha with rfl | ha2
    · rw [List.filter_cons, if_neg (by simp)]
      rw [filter_ne_eq_self hx]
      simp
    · have hxa : x ≠ a := fun he => hx (he ▸ ha2)
      rw [List.filter_cons, if_pos (by simpa using hxa)]
      have hr := ih hn ha2
      simp only [List.length_cons]
      omega

theorem nwsDaily_length (ps : List NWSPeriod) (today : String) :
    (nwsDaily ps today).length = (dateKeysOf ps).dedup.length := by
  rw [nwsDaily, List.length_map]
  rw [nwsDailyKeyed_eq, List.length_append]
  have hmemS : ∀ d ∈ (sortKeys (mapKeys (buildDayMap ps))).filter
      (fun d => decide (d ≠ today)), d ∈ mapKeys (buildDayMap ps) :=
    fun d hd => (sortKeys_perm _).mem_iff.mp (List.mem_filter.mp hd).1
  rw [entriesFor_length _ _ hmemS]
  have hlen : (sortKeys (mapKeys (buildDayMap ps))).length =
      (dateKeysOf ps).dedup.length := by
    rw [(sortKeys_perm _).length_eq, length_mapKeys_buildDayMap]
  cases hb : alookup today (buildDayMap ps) with
  | none =>
    have hnotin : today ∉ sortKeys (mapKeys (buildDayMap ps)) := by
      intro hc
      exact (alookup_eq_none_iff _ _).mp hb ((sortKeys_perm _).mem_iff.mp hc)
    rw [filter_ne_eq_self hnotin]
    simp only [List.length_nil, Nat.zero_add]
    exact hlen
  | some b =>
    have hin : today ∈ sortKeys (mapKeys (buildDayMap ps)) :=
      (sortKeys_perm _).mem_iff.mpr (mem_of_alookup_eq_some hb)
    have hfl := filter_ne_length (sortKeys_nodup_buildDayMap ps) hin
    simp only [List.length_cons, List.length_nil]
    omega

/-! Canonical order-insensitive forms of a group's min and max. -/

theorem ominStep_rightComm : ∀ (o : Option ℚ) (a b : ℚ),
    ominStep (ominStep o a) b = ominStep (ominStep o b) a := by
  intro o a b
  cases o with
  | none => simp [ominStep, min_comm]
  | some m => simp [ominStep, min_right_comm]

theorem omaxStep_rightComm : ∀ (o : Option ℚ) (a b : ℚ),
    omaxStep (omaxStep o a) b = omaxStep (omaxStep o b) a := by
  intro o a b
  cases o with
  | none => simp [omaxStep, max_comm]
  | some m =>
    simp only [omaxStep, Option.some.injEq]
    rw [max_assoc, max_comm a b, ← max_assoc]

theorem foldMinQ_perm {l₁ l₂ : List ℚ} (h : l₁.Perm l₂) : foldMinQ l₁ = foldMinQ l₂ :=
  @List.Perm.foldl_eq _ _ ominStep _ _ ⟨ominStep_rightComm⟩ h none

theorem foldMaxQ_perm {l₁ l₂ : List ℚ} (h : l₁.Perm l₂) : foldMaxQ l₁ = foldMaxQ l₂ :=
  @List.Perm.foldl_eq _ _ omaxStep _ _ ⟨omaxStep_rightComm⟩ h none

theorem foldl_ominStep_some (l : List ℚ) :
    ∀ a : ℚ, l.foldl ominStep (some a) = some (l.foldl min a) := by
  induction l with
  | nil => intro a; rfl
  | cons x l ih =>
    intro a
    rw [List.foldl_cons, List.foldl_cons]
    exact ih (min a x)

theorem foldl_omaxStep_some (l : List ℚ) :
    ∀ a : ℚ, l.foldl omaxStep (some a) = some (l.foldl max a) := by
  induction l with
  | nil => intro a; rfl
  | cons x l ih =>
    intro a
    rw [List.foldl_cons, List.foldl_cons]
    exact ih (max a x)

theorem foldMinQ_cons (x : ℚ) (l : List ℚ) : foldMinQ (x :: l) = some (l.foldl min x) := by
  rw [foldMinQ, List.foldl_cons]
  exact foldl_ominStep_some l x

theorem foldMaxQ_cons (x : ℚ) (l : List ℚ) : foldMaxQ (x :: l) = some (l.foldl max x) := by
  rw [foldMaxQ, List.foldl_cons]
  exact foldl_omaxStep_some l x

theorem foldl_min_absorb {a n0 : ℚ} {N : List ℚ}
    (h : ∀ y ∈ n0 :: N, y ≤ a) :
    (n0 :: N).foldl min a = N.foldl min n0 := by
  rw [List.foldl_cons, min_eq_right (h n0 (List.mem_cons_self _ _))]

theorem foldl_max_absorb {a d0 : ℚ} {D : List ℚ}
    (h : ∀ y ∈ d0 :: D, a ≤ y) :
    (d0 :: D).foldl max a = D.foldl max d0 := by
  rw [List.foldl_cons, max_eq_right (h d0 (List.mem_cons_self _ _))]

theorem mem_nightTempsOf {g : List (DateTime × NWSPeriod)} {y : ℚ}
    (hy : y ∈ nightTempsOf g) :
    ∃ w ∈ g, w.2.isDaytime = false ∧ w.2.temperature = y := by
  rw [nightTempsOf] at hy
  obtain ⟨w, hw, hwy⟩ := List.mem_map.mp hy
  obtain ⟨hwg, hwn⟩ := List.mem_filter.mp hw
  exact ⟨w, hwg, by simpa using hwn, hwy⟩

theorem mem_dayTempsOf {g : List (DateTime × NWSPeriod)} {y : ℚ}
    (hy : y ∈ dayTempsOf g) :
    ∃ w ∈ g, w.2.isDaytime = true ∧ w.2.temperature = y := by
  rw [dayTempsOf] at hy
  obtain ⟨w, hw, hwy⟩ := List.mem_map.mp hy
  obtain ⟨hwg, hwn⟩ := List.mem_filter.mp hw
  exact ⟨w, hwg, by simpa using hwn, hwy⟩

theorem aggGroup_min_canonical {g : List (DateTime × NWSPeriod)}
    (hnight : ∃ x ∈ g, x.2.isDaytime = false)
    (hdom : ∀ x ∈ g, ∀ y ∈ g, x.2.isDaytime = true → y.2.isDaytime = false →
      y.2.temperature ≤ x.2.temperature) :
    (aggGroup g).map (fun b => b.minTemp) = foldMinQ (nightTempsOf g) := by
  cases g with
  | nil =>
    obtain ⟨x, hx, _⟩ := hnight
    simp at hx
  | cons x xs =>
    rw [show aggGroup (x :: xs) = some (foldGroup (seedBucket x.1 x.2) xs) from rfl]
    rw [Option.map_some', foldGroup_minTemp]
    cases hx : x.2.isDaytime with
    | false =>
      rw [nightTempsOf_cons, if_neg (by simp [hx]), foldMinQ_cons]
      rfl
    | true =>
      rw [nightTempsOf_cons, if_pos (by simp [hx])]
      obtain ⟨z, hz, hzn⟩ := hnight
      have hzxs : z ∈ xs := by
        rcases List.mem_cons.mp hz with rfl | h2
        · rw [hx] at hzn
          exact absurd hzn (by simp)
        · exact h2
      have hzt : z.2.temperature ∈ nightTempsOf xs := by
        refine List.mem_map.mpr ⟨z, ?_, rfl⟩
        exact List.mem_filter.mpr ⟨hzxs, by simp [hzn]⟩
      cases hN : nightTempsOf xs with
      | nil =>
        rw [hN] at hzt
        simp at hzt
      | cons n0 N =>
        have habs : ∀ y ∈ n0 :: N, y ≤ (seedBucket x.1 x.2).minTemp := by
          intro y hy
          rw [← hN] at hy
          obtain ⟨w, hwxs, hwn, hwy⟩ := mem_nightTempsOf hy
          rw [← hwy]
          exact hdom x (List.mem_cons_self _ _) w (List.mem_cons_of_mem _ hwxs) hx hwn
        rw [foldl_min_absorb habs, foldMinQ_cons]

theorem aggGroup_max_canonical {g : List (DateTime × NWSPeriod)}
    (hday : ∃ x ∈ g, x.2.isDaytime = true)
    (hdom : ∀ x ∈ g, ∀ y ∈ g, x.2.isDaytime = true → y.2.isDaytime = false →
      y.2.temperature ≤ x.2.temperature) :
    (aggGroup g).map (fun b => b.maxTemp) = foldMaxQ (dayTempsOf g) := by
  cases g with
  | nil =>
    obtain ⟨x, hx, _⟩ := hday
    simp at hx
  | cons x xs =>
    rw [show aggGroup (x :: xs) = some (foldGroup (seedBucket x.1 x.2) xs) from rfl]
    rw [Option.map_some', foldGroup_maxTemp]
    cases hx : x.2.isDaytime with
    | true =>
      rw [dayTempsOf_cons, if_pos (by simp [hx]), foldMaxQ_cons]
      rfl
    | false =>
      rw [dayTempsOf_cons, if_neg (by simp [hx])]
      obtain ⟨z, hz, hzd⟩ := hday
      have hzxs : z ∈ xs := by
        rcases List.mem_cons.mp hz with rfl | h2
        · rw [hx] at hzd
          exact absurd hzd (by simp)
        · exact h2
      have hzt : z.2.temperature ∈ dayTempsOf xs := by
        refine List.mem_map.mpr ⟨z, ?_, rfl⟩
        exact List.mem_filter.mpr ⟨hzxs, by simp [hzd]⟩
      cases hD : dayTempsOf xs with
      | nil =>
        rw [hD] at hzt
        simp at hzt
      | cons d0 D =>
        have habs : ∀ y ∈ d0 :: D, (seedBucket x.1 x.2).maxTemp ≤ y := by
          intro y hy
          rw [← hD] at hy
          obtain ⟨w, hwxs, hwd, hwy⟩ := mem_dayTempsOf hy
          rw [← hwy]
          exact hdom w (List.mem_cons_of_mem _ hwxs) x (List.mem_cons_self _ _) hwd hx
        rw [foldl_max_absorb habs, foldMaxQ_cons]

theorem groupOn_perm {ps ps2 : List NWSPeriod} (h : ps.Perm ps2) (d : String) :
    (groupOn d ps).Perm (groupOn d ps2) :=
  List.Perm.filter _ (List.Perm.filterMap _ h)

theorem nightTempsOf_perm {g₁ g₂ : List (DateTime × NWSPeriod)} (h : g₁.Perm g₂) :
    (nightTempsOf g₁).Perm (nightTempsOf g₂) :=
  List.Perm.map _ (List.Perm.filter _ h)

theorem dayTempsOf_perm {g₁ g₂ : List (DateTime × NWSPeriod)} (h : g₁.Perm g₂) :
    (dayTempsOf g₁).Perm (dayTempsOf g₂) :=
  List.Perm.map _ (List.Perm.filter _ h)

/-! Success characterization of the option traversal. -/

theorem optionMapList_eq_some_map {α β : Type} (f : α → Option β) (g : α → β)
    (l : List α) (h : ∀ a ∈ l, f a = some (g a)) :
    optionMapList f l = some (l.map g) := by
  induction l with
  | nil => rfl
  | cons a l ih =>
    simp only [optionMapList, h a (List.mem_cons_self _ _),
      ih (fun x hx => h x (List.mem_cons_of_mem _ hx)), Option.map_some', List.map_cons]

/-! Bridge lemmas for stating the update rule the way the spec phrases it. -/

theorem dayBucket_ext {b c : DayBucket} (h1 : b.date = c.date) (h2 : b.minTemp = c.minTemp)
    (h3 : b.maxTemp = c.maxTemp) (h4 : b.description = c.description) : b = c := by
  cases b
  cases c
  dsimp only at h1 h2 h3 h4
  rw [h1, h2, h3, h4]

theorem updateBucket_minTemp_rule (b : DayBucket) (p : NWSPeriod) :
    (updateBucket b p).minTemp =
      if p.isDaytime = false ∧ p.temperature < b.minTemp then p.temperature
      else b.minTemp := by
  rw [updateBucket_minTemp]
  cases h : p.isDaytime with
  | true => simp [h]
  | false =>
    by_cases hlt : p.temperature < b.minTemp
    · simp [h, hlt, min_eq_right (le_of_lt hlt)]
    · simp [h, hlt, min_eq_left (le_of_not_lt hlt)]

theorem updateBucket_maxTemp_rule (b : DayBucket) (p : NWSPeriod) :
    (updateBucket b p).maxTemp =
      if p.isDaytime = true ∧ b.maxTemp < p.temperature then p.temperature
      else b.maxTemp := by
  rw [updateBucket_maxTemp]
  cases h : p.isDaytime with
  | false => simp [h]
  | true =>
    by_cases hmx : b.maxTemp < p.temperature
    · simp [h, hmx, max_eq_right (le_of_lt hmx)]
    · simp [h, hmx, max_eq_left (le_of_not_lt hmx)]

theorem alookup_stepDayMap_hit_none {m : List (String × DayBucket)} {p : NWSPeriod}
    {t : DateTime} (h : p.startTime = some t) (hn : alookup t.dateKey m = none) :
    alookup t.dateKey (stepDayMap m p) = some (seedBucket t p) := by
  rw [alookup_stepDayMap_hit h, hn]

theorem alookup_stepDayMap_hit_some {m : List (String × DayBucket)} {p : NWSPeriod}
    {t : DateTime} {b : DayBucket} (h : p.startTime = some t)
    (hb : alookup t.dateKey m = some b) :
    alookup t.dateKey (stepDayMap m p) = some (updateBucket b p) := by
  rw [alookup_stepDayMap_hit h, hb]

theorem buildDayMap_snoc (ps : List NWSPeriod) (p : NWSPeriod) :
    buildDayMap (ps ++ [p]) = stepDayMap (buildDayMap ps) p := by
  rw [buildDayMap, runDayMap_append]
  rfl

/-! The claim theorems. -/

/-- Claim C1: the fallback daily aggregator seeds a date's bucket from the
first period seen for that date (tempMin = tempMax = its temperature,
condition = its shortForecast); every subsequent period on the same date
raises the max and replaces the condition exactly when it is daytime and
strictly above the running max, and lowers the min exactly when it is
nighttime and strictly below the running min; other dates are untouched.
On the example periods (day1 day 70, day1 night 55, day2 day 72) the
result is day1 min 55 max 70 and day2 min 72 max 72. -/
theorem claim1_daily_aggregation_rule :
    (∀ (ps : List NWSPeriod) (p : NWSPeriod) (t : DateTime), p.startTime = some t →
      (alookup t.dateKey (buildDayMap ps) = none →
        alookup t.dateKey (buildDayMap (ps ++ [p])) =
          some { date := t, minTemp := p.temperature, maxTemp := p.temperature,
                 description := p.shortForecast }) ∧
      (∀ b, alookup t.dateKey (buildDayMap ps) = some b →
        alookup t.dateKey (buildDayMap (ps ++ [p])) =
          some { date := b.date,
                 minTemp := if p.isDaytime = false ∧ p.temperature < b.minTemp
                   then p.temperature else b.minTemp,
                 maxTemp := if p.isDaytime = true ∧ b.maxTemp < p.temperature
                   then p.temperature else b.maxTemp,
                 description := if p.isDaytime = true ∧ b.maxTemp < p.temperature
                   then p.shortForecast else b.description }) ∧
      (∀ d, d ≠ t.dateKey →
        alookup d (buildDayMap (ps ++ [p])) = alookup d (buildDayMap ps))) ∧
    (alookup "2025-01-01" (buildDayMap exPeriods)).map (fun b => (b.minTemp, b.maxTemp))
      = some (55, 70) ∧
    (alookup "2025-01-02" (buildDayMap exPeriods)).map (fun b => (b.minTemp, b.maxTemp))
      = some (72, 72) := by
  refine ⟨?_, by decide, by decide⟩
  intro ps p t ht
  refine ⟨?_, ?_, ?_⟩
  · intro hnone
    rw [buildDayMap_snoc, alookup_stepDayMap_hit_none ht hnone]
    rfl
  · intro b hb
    rw [buildDayMap_snoc, alookup_stepDayMap_hit_some ht hb]
    congr 1
    exact dayBucket_ext (updateBucket_date b p) (updateBucket_minTemp_rule b p)
      (updateBucket_maxTemp_rule b p) (updateBucket_description b p)
  · intro d hd
    rw [buildDayMap_snoc, alookup_stepDayMap_miss ht hd]

/-- Witness for claim C1 at concrete inputs: appending the night-55 period
to the day-70 period lowers day1's min to 55 and keeps max 70 and
condition Sunny; appending the day-72 period seeds day2 at 72/72. -/
theorem claim1_daily_aggregation_rule_witness :
    alookup "2025-01-01" (buildDayMap ([exPeriod1] ++ [exPeriod2])) =
      some { date := ⟨"2025-01-01", 1735718400⟩, minTemp := 55, maxTemp := 70,
             description := "Sunny" } ∧
    alookup "2025-01-02" (buildDayMap ([exPeriod1, exPeriod2] ++ [exPeriod3])) =
      some { date := ⟨"2025-01-02", 1735804800⟩, minTemp := 72, maxTemp := 72,
             description := "Cloudy" } := by
  constructor
  · have h := (claim1_daily_aggregation_rule.1 [exPeriod1] exPeriod2
      ⟨"2025-01-01", 1735761600⟩ rfl).2.1
      { date := ⟨"2025-01-01", 1735718400⟩, minTemp := 70, maxTemp := 70,
        description := "Sunny" } rfl
    rw [h]
    rfl
  · have h := (claim1_daily_aggregation_rule.1 [exPeriod1, exPeriod2] exPeriod3
      ⟨"2025-01-02", 1735804800⟩ rfl).1 rfl
    rw [h]
    rfl

/-- Claim C2 (amended): the daily sequence produced by the fallback
aggregation has exactly one entry per distinct calendar date among the
parseable periods, with no cap: its length always equals the number of
distinct date keys.  The source applies the 7-entry cap only downstream
(GetLocationWeather and buildForecastText), not in getNWSWeather. -/
theorem claim2_daily_length (ps : List NWSPeriod) (today : String) :
    (nwsDaily ps today).length = (dateKeysOf ps).dedup.length :=
  nwsDaily_length ps today

/-- Counterexample to claim C2 as stated: eight periods on eight distinct
dates produce a daily sequence of length 8, exceeding 7, whether or not
today is among the dates. -/
theorem claim2_cap_counterexample :
    (nwsDaily ex8Periods "2025-03-01").length = 8 ∧
    ¬ (nwsDaily ex8Periods "2025-03-01").length ≤ 7 ∧
    (nwsDaily ex8Periods "1900-01-01").length = 8 := by
  refine ⟨by decide, by decide, by decide⟩

/-- Claim C3 (amended): the per-date min/max of the fallback aggregation
is invariant under permutations of the period sequence for every date
whose group contains at least one daytime and at least one nighttime
period and whose nighttime temperatures never exceed its daytime
temperatures (the day-carries-the-high, night-carries-the-low domain
assumption); without that assumption the seed of the first period makes
the result order-dependent. -/
theorem claim3_reorder_minmax (ps ps2 : List NWSPeriod) (d : String)
    (hperm : ps.Perm ps2)
    (hday : ∃ x ∈ groupOn d ps, x.2.isDaytime = true)
    (hnight : ∃ x ∈ groupOn d ps, x.2.isDaytime = false)
    (hdom : ∀ x ∈ groupOn d ps, ∀ y ∈ groupOn d ps, x.2.isDaytime = true →
      y.2.isDaytime = false → y.2.temperature ≤ x.2.temperature) :
    (alookup d (buildDayMap ps)).map (fun b => b.minTemp) =
      (alookup d (buildDayMap ps2)).map (fun b => b.minTemp) ∧
    (alookup d (buildDayMap ps)).map (fun b => b.maxTemp) =
      (alookup d (buildDayMap ps2)).map (fun b => b.maxTemp) := by
  have hg : (groupOn d ps).Perm (groupOn d ps2) := groupOn_perm hperm d
  have hday2 : ∃ x ∈ groupOn d ps2, x.2.isDaytime = true := by
    obtain ⟨x, hx, hxd⟩ := hday
    exact ⟨x, hg.mem_iff.mp hx, hxd⟩
  have hnight2 : ∃ x ∈ groupOn d ps2, x.2.isDaytime = false := by
    obtain ⟨x, hx, hxd⟩ := hnight
    exact ⟨x, hg.mem_iff.mp hx, hxd⟩
  have hdom2 : ∀ x ∈ groupOn d ps2, ∀ y ∈ groupOn d ps2, x.2.isDaytime = true →
      y.2.isDaytime = false → y.2.temperature ≤ x.2.temperature :=
    fun x hx y hy hxd hyn => hdom x (hg.mem_iff.mpr hx) y (hg.mem_iff.mpr hy) hxd hyn
  rw [alookup_buildDayMap, alookup_buildDayMap]
  constructor
  · rw [aggGroup_min_canonical hnight hdom, aggGroup_min_canonical hnight2 hdom2]
    exact foldMinQ_perm (nightTempsOf_perm hg)
  · rw [aggGroup_max_canonical hday hdom, aggGroup_max_canonical hday2 hdom2]
    exact foldMaxQ_perm (dayTempsOf_perm hg)

/-- Witness for claim C3 at concrete inputs: swapping the day-70 and
night-55 periods of one date leaves min and max unchanged under the
domain assumption. -/
theorem claim3_reorder_minmax_witness :
    (alookup "2025-01-01" (buildDayMap [exPeriod1, exPeriod2])).map (fun b => b.minTemp) =
      (alookup "2025-01-01" (buildDayMap [exPeriod2, exPeriod1])).map (fun b => b.minTemp) ∧
    (alookup "2025-01-01" (buildDayMap [exPeriod1, exPeriod2])).map (fun b => b.maxTemp) =
      (alookup "2025-01-01" (buildDayMap [exPeriod2, exPeriod1])).map (fun b => b.maxTemp) :=
  claim3_reorder_minmax [exPeriod1, exPeriod2] [exPeriod2, exPeriod1] "2025-01-01"
    (List.Perm.swap exPeriod2 exPeriod1 []) (by decide) (by decide) (by decide)

/-- Counterexample to claim C3 as stated: for a date whose nighttime
period (80) is hotter than its daytime period (70), the two orders of the
same two periods give different minima: 70 when the day period comes
first, 80 when the night period comes first. -/
theorem claim3_reorder_counterexample :
    ([cexNight, cexDay] : List NWSPeriod).Perm [cexDay, cexNight] ∧
    (alookup "2025-07-01" (buildDayMap [cexDay, cexNight])).map (fun b => b.minTemp)
      = some 70 ∧
    (alookup "2025-07-01" (buildDayMap [cexNight, cexDay])).map (fun b => b.minTemp)
      = some 80 :=
  ⟨List.Perm.swap cexDay cexNight [], by decide, by decide⟩

/-- Claim C4: the aggregated daily sequence has pairwise-distinct calendar
dates; the dates other than today appear in strictly ascending order;
when today's date is among the grouped dates the first entry is today's;
and no entry has tempMin above tempMax. -/
theorem claim4_daily_invariant (ps : List NWSPeriod) (today : String) :
    ((nwsDailyKeyed ps today).map (·.1)).Nodup ∧
    List.Sorted strLt (((nwsDailyKeyed ps today).map (·.1)).filter
      (fun d => decide (d ≠ today))) ∧
    (today ∈ dateKeysOf ps →
      ((nwsDailyKeyed ps today).map (·.1)).head? = some today) ∧
    (∀ x ∈ nwsDailyKeyed ps today, x.2.tempMin ≤ x.2.tempMax) :=
  ⟨nwsDailyKeyed_dates_nodup ps today, nwsDailyKeyed_dates_sorted ps today,
   fun h => nwsDailyKeyed_head ps today h, nwsDailyKeyed_min_le_max ps today⟩

/-- Witness for claim C4 at concrete inputs: on the example periods with
today = day1, the first output date is day1, and the day1 entry has
tempMin 55 at most tempMax 70. -/
theorem claim4_daily_invariant_witness :
    ((nwsDailyKeyed exPeriods "2025-01-01").map (·.1)).head? = some "2025-01-01" ∧
    (("2025-01-01", (⟨1735718400, 55, 70, ["Sunny"]⟩ : DailyEntry)) :
        String × DailyEntry).2.tempMin ≤
      (("2025-01-01", (⟨1735718400, 55, 70, ["Sunny"]⟩ : DailyEntry)) :
        String × DailyEntry).2.tempMax :=
  ⟨(claim4_daily_invariant exPeriods "2025-01-01").2.2.1 (by decide),
   (claim4_daily_invariant exPeriods "2025-01-01").2.2.2 _ (by decide)⟩

/-- Claim C5: celsiusToFahrenheit is exactly the map c to c*9/5 + 32, so
0 Celsius gives 32 and 100 Celsius gives 212; and on the fallback path
the snapshot's current temperature is celsiusToFahrenheit of the
observation's Celsius temperature. -/
theorem claim5_celsius_to_fahrenheit :
    (∀ c : ℚ, celsiusToFahrenheit c = c * 9 / 5 + 32) ∧
    celsiusToFahrenheit 0 = 32 ∧
    celsiusToFahrenheit 100 = 212 ∧
    (∀ (obs : NWSObservation) (ps : List NWSPeriod) (today : String),
      (getNWSWeatherPure obs ps today).current.temp =
        celsiusToFahrenheit obs.temperature) :=
  ⟨fun c => rfl, by norm_num [celsiusToFahrenheit], by norm_num [celsiusToFahrenheit],
   fun obs ps today => rfl⟩

/-- Claim C6: validateURL accepts a parsed URL exactly when the scheme is
the literal https and the host ends in one of the two allowed domains,
the primary provider's and the fallback provider's; every other URL is
rejected with an error value. -/
theorem claim6_validate_url (u : URLParts) :
    (validateURL u = .ok () ↔
      u.scheme = "https" ∧ (hasSuffixS u.host "openweathermap.org" = true ∨
        hasSuffixS u.host "api.weather.gov" = true)) ∧
    (validateURL u = .ok () ∨ ∃ e, validateURL u = .error e) := by
  constructor
  · by_cases hs : u.scheme = "https"
    · cases h1 : hasSuffixS u.host "openweathermap.org" <;>
        cases h2 : hasSuffixS u.host "api.weather.gov" <;>
          simp [validateURL, allowedHosts, hs, h1, h2]
    · simp [validateURL, hs]
  · rw [validateURL]
    split_ifs
    · exact Or.inr ⟨_, rfl⟩
    · exact Or.inr ⟨_, rfl⟩
    · exact Or.inl rfl

/-- Witness for claim C6 at concrete inputs: the fallback provider's API
host is accepted over https and rejected over http. -/
theorem claim6_validate_url_witness :
    validateURL { scheme := "https", host := "api.weather.gov" } = .ok () ∧
    ¬ validateURL { scheme := "http", host := "api.weather.gov" } = .ok () :=
  ⟨(claim6_validate_url { scheme := "https", host := "api.weather.gov" }).1.mpr
    ⟨rfl, Or.inr rfl⟩,
   fun h => by
    have hc := (claim6_validate_url { scheme := "http", host := "api.weather.gov" }).1.mp h
    exact absurd hc.1 (by decide)⟩

/-- Claim C7: for a five-digit ZIP code the credential-free coordinate
resolution never errors; a ZIP in the fixed table resolves to that
table entry, and any other ZIP resolves to the hardcoded default
location. -/
theorem claim7_zip_resolution (zip : String) (h : isValidZip zip = true) :
    (∃ v, getNWSCoordinates zip = .ok v) ∧
    (∀ c, alookup zip zipCoords = some c → getNWSCoordinates zip = .ok c) ∧
    (alookup zip zipCoords = none → getNWSCoordinates zip = .ok defaultCoords) := by
  refine ⟨?_, ?_, ?_⟩
  · cases hc : alookup zip zipCoords with
    | none => exact ⟨defaultCoords, by rw [getNWSCoordinates, hc]⟩
    | some c => exact ⟨c, by rw [getNWSCoordinates, hc]⟩
  · intro c hc
    rw [getNWSCoordinates, hc]
  · intro hc
    rw [getNWSCoordinates, hc]

/-- Witness for claim C7 at concrete inputs: the table ZIP 90210 resolves
to the Beverly Hills entry and the unlisted ZIP 99999 resolves to the
default location. -/
theorem claim7_zip_resolution_witness :
    isValidZip "90210" = true ∧
    getNWSCoordinates "90210" = .ok (34.0901, -118.4065, "Beverly Hills") ∧
    isValidZip "99999" = true ∧
    getNWSCoordinates "99999" = .ok defaultCoords := by
  refine ⟨by decide, ?_, by decide, ?_⟩
  · exact (claim7_zip_resolution "90210" (by decide)).2.1 _ rfl
  · exact (claim7_zip_resolution "99999" (by decide)).2.2 rfl

/-- Claim C8: a period whose start timestamp fails to parse is dropped
silently: the dayMap, every date group, and the assembled daily sequence
are the same as if the period were absent, and aggregation stays total. -/
theorem claim8_unparsable_dropped (ps1 ps2 : List NWSPeriod) (p : NWSPeriod)
    (h : p.startTime = none) :
    buildDayMap (ps1 ++ p :: ps2) = buildDayMap (ps1 ++ ps2) ∧
    (∀ d, groupOn d (ps1 ++ p :: ps2) = groupOn d (ps1 ++ ps2)) ∧
    (∀ today, nwsDaily (ps1 ++ p :: ps2) today = nwsDaily (ps1 ++ ps2) today) := by
  have hb : buildDayMap (ps1 ++ p :: ps2) = buildDayMap (ps1 ++ ps2) := by
    rw [buildDayMap, buildDayMap]
    rw [show ps1 ++ p :: ps2 = (ps1 ++ [p]) ++ ps2 by simp]
    rw [runDayMap_append, runDayMap_append, runDayMap_append]
    simp [runDayMap, stepDayMap, h]
  refine ⟨hb, ?_, ?_⟩
  · intro d
    simp [groupOn, parsedPeriods, List.filterMap_append, List.filterMap_cons, h]
  · intro today
    rw [nwsDaily, nwsDaily, nwsDailyKeyed_eq, nwsDailyKeyed_eq, hb]

/-- Witness for claim C8 at concrete inputs: inserting the unparsable
period between the two example days changes neither the dayMap nor the
daily sequence. -/
theorem claim8_unparsable_dropped_witness :
    buildDayMap ([exPeriod1] ++ badPeriod :: [exPeriod3]) =
      buildDayMap ([exPeriod1] ++ [exPeriod3]) ∧
    nwsDaily ([exPeriod1] ++ badPeriod :: [exPeriod3]) "2025-01-01" =
      nwsDaily ([exPeriod1] ++ [exPeriod3]) "2025-01-01" :=
  ⟨(claim8_unparsable_dropped [exPeriod1] [exPeriod3] badPeriod rfl).1,
   (claim8_unparsable_dropped [exPeriod1] [exPeriod3] badPeriod rfl).2.2 "2025-01-01"⟩

/-- Claim C9 evaluation: an upstream 200 response whose decoded body has
no daily entries makes GetLocationWeather evaluate make with length -1, a
runtime panic that terminates the whole batch (modelled none), instead of
skipping the ZIP code; error values, by contrast, are skipped and the
batch continues. -/
theorem claim9_empty_body_panics :
    processLocationsO ["90210", "10001"]
      (fun z => getLocationWeatherO z getNWSCoordinates
        (fun _ _ => .ok emptyWeatherResponse) 0) = none ∧
    processLocationsO ["90210", "10001"] (fun _ => some (.error "boom")) = some [] ∧
    getLocationWeatherO "90210" getNWSCoordinates
      (fun _ _ => .ok emptyWeatherResponse) 0 = none := by
  refine ⟨by decide, by decide, rfl⟩

/-- Claim C10 (amended): when the weather response has at least one daily
entry and each of the daily entries copied into the forecast (positions 1
to min(length,7)-1) has a nonempty weather list, GetLocationWeather
returns a record whose Forecast is exactly those entries in order, of
length min(length,7)-1, with ForecastDays equal to that count; the first
daily entry is always excluded, independent of the today used by the
fallback aggregation. -/
theorem claim10_forecast_shape (zip city : String) (now : Int) (w : WeatherResponse)
    (h1 : 1 ≤ w.daily.length)
    (h2 : ∀ d ∈ (w.daily.take (min w.daily.length 7)).drop 1, d.weather ≠ []) :
    ∃ wd, processWeatherData zip city now w = some wd ∧
      wd.forecast = ((w.daily.take (min w.daily.length 7)).drop 1).map
        (fun d => { date := d.dt, tempMin := d.tempMin, tempMax := d.tempMax,
                    condition := d.weather.headD "" }) ∧
      wd.forecast.length = min w.daily.length 7 - 1 ∧
      wd.forecastDays = ((min w.daily.length 7 : Nat) : Int) - 1 := by
  have hfd : (if ((w.daily.length : Int)) > 7 then (7 : Int) else (w.daily.length : Int))
      = ((min w.daily.length 7 : Nat) : Int) := by
    split_ifs with hc <;> push_cast <;> omega
  have hg : ∀ d ∈ (w.daily.take (min w.daily.length 7)).drop 1,
      forecastOf d = some { date := d.dt, tempMin := d.tempMin,
                            tempMax := d.tempMax,
                            condition := d.weather.headD "" } := by
    intro d hd
    cases hw : d.weather with
    | nil => exact absurd hw (h2 d hd)
    | cons c cs => simp [forecastOf, hw]
  simp only [processWeatherData, hfd]
  rw [if_neg (by omega)]
  rw [show ((min w.daily.length 7 : Nat) : Int).toNat = min w.daily.length 7 from by omega]
  rw [optionMapList_eq_some_map _ _ _ hg, Option.map_some']
  refine ⟨_, rfl, rfl, ?_, rfl⟩
  rw [List.length_map, List.length_drop, List.length_take]
  omega

/-- Witness for claim C10 at concrete inputs: a three-entry response
yields a two-entry forecast consisting of entries one and two. -/
theorem claim10_forecast_shape_witness :
    ∃ wd, processWeatherData "90210" "Beverly Hills" 0 exGoodResponse = some wd ∧
      wd.forecast = ((exGoodResponse.daily.take (min exGoodResponse.daily.length 7)).drop 1).map
        (fun d => { date := d.dt, tempMin := d.tempMin, tempMax := d.tempMax,
                    condition := d.weather.headD "" }) ∧
      wd.forecast.length = min exGoodResponse.daily.length 7 - 1 ∧
      wd.forecastDays = ((min exGoodResponse.daily.length 7 : Nat) : Int) - 1 :=
  claim10_forecast_shape "90210" "Beverly Hills" 0 exGoodResponse (by decide) (by decide)

/-- Counterexample to claim C10 as stated: a response with two daily
entries whose second entry has an empty weather list makes the forecast
loop index an empty slice, a runtime panic (modelled none), so no
WeatherData is returned even though the response has at least one daily
entry. -/
theorem claim10_empty_weather_counterexample :
    1 ≤ cexWeatherlessResponse.daily.length ∧
    processWeatherData "90210" "Beverly Hills" 0 cexWeatherlessResponse = none :=
  ⟨by decide, by decide⟩

end WeatherPipeline

